import Mathlib

/-!
Shallow embedding of the batch-processor site generator.

The definitions below translate, item by item, the functions of the
source file src/index.js (class BatchProcessor) and the configuration
record src/config.js.  Randomness (Math.random) is modelled by explicit
streams of choices passed as function arguments; the filesystem is
modelled by a boolean existence predicate.
-/

namespace BatchProcessor

/-! ### Fisher-Yates shuffle

src/index.js lines 268-272 (count list) and 351-355 (game list) contain
the in-place loop:
  for (let i = a.length - 1; i > 0; i--) [swap a[i] with a[j], j random in [0,i]].
The random draw Math.floor(Math.random() * (i + 1)) is modelled by
rand i % (i + 1), where rand is the supplied stream of naturals. -/

/-- Swap the entries at positions i and j of a list; identity when either
index is out of range (in the source both indices are always in range). -/
def listSwap (l : List α) (i j : Nat) : List α :=
  match l[i]?, l[j]? with
  | some a, some b => (l.set i b).set j a
  | _, _ => l

/-- The descending loop of the Fisher-Yates shuffle: processes index n,
then n-1, ..., down to index 1. -/
def fyAux (rand : Nat → Nat) : Nat → List α → List α
  | 0, l => l
  | n + 1, l => fyAux rand n (listSwap l (n + 1) (rand (n + 1) % (n + 2)))

/-- The full shuffle, starting from index length - 1 as the source does. -/
def fisherYates (l : List α) (rand : Nat → Nat) : List α :=
  fyAux rand (l.length - 1) l

/-! ### Game catalog (data/games.json model) -/

/-- One record of the game catalog.  Only the tag list matters to the
processor; tags = none models a record whose tags field is not an array
(the source guards every access with Array.isArray(game.tags)). -/
structure Game where
  title : String
  tags : Option (List String)
deriving DecidableEq

/-- Eligibility test of src/index.js lines 148-149 and 341-342:
Array.isArray(game.tags) && game.tags.includes("html5"). -/
def isHtml5 (g : Game) : Bool :=
  match g.tags with
  | some ts => ts.contains "html5"
  | none => false

/-- The parsed games.json document: games = none models a document
without a games array. -/
structure GamesData where
  games : Option (List Game)
deriving DecidableEq

/-- The html5-filtered catalog of src/index.js lines 148-150:
gamesData.games ? gamesData.games.filter(...) : []. -/
def html5Games (gd : GamesData) : List Game :=
  match gd.games with
  | some gs => gs.filter isHtml5
  | none => []

/-- Per-project game selection, the core of processGamesJson
(src/index.js lines 341-358): filter to html5 entries, shuffle them,
keep the first gamesCount. -/
def selectGames (catalog : List Game) (gamesCount : Nat) (rand : Nat → Nat) : List Game :=
  (fisherYates (catalog.filter isHtml5) rand).take gamesCount

/-- processGamesJson (src/index.js lines 335-366): when the document has
a games array, replace it with the selected subset; otherwise the
document is written back unchanged. -/
def processGamesJson (gd : GamesData) (gamesCount : Nat) (rand : Nat → Nat) : GamesData :=
  match gd.games with
  | some gs => ⟨some (selectGames gs gamesCount rand)⟩
  | none => gd

/-! ### Game-count planning (src/index.js lines 262-272, 296-298) -/

/-- The candidate count list: for (i = gamesMin; i <= gamesMax; i++)
possibleCounts.push(i). -/
def possibleCounts (gamesMin gamesMax : Nat) : List Nat :=
  List.range' gamesMin (gamesMax + 1 - gamesMin)

/-- Range check and shuffle of src/index.js lines 263-272: error when
the candidate list is shorter than the number of projects, otherwise
the shuffled list from which project i receives entry i. -/
def planCountsE (gamesMin gamesMax totalSites : Nat) (srand : Nat → Nat) :
    Except String (List Nat) :=
  let pc := possibleCounts gamesMin gamesMax
  if pc.length < totalSites then .error "RangeTooSmall"
  else .ok (fisherYates pc srand)

/-- The realized plan: the first totalSites entries of the shuffled
candidate list (entry i goes to project i, src/index.js line 297). -/
def planCounts (gamesMin gamesMax totalSites : Nat) (srand : Nat → Nat) : List Nat :=
  (fisherYates (possibleCounts gamesMin gamesMax) srand).take totalSites

/-! ### Project names (src/index.js lines 217-237) -/

/-- The maximal trailing digit run of a name, as matched by /(\d+)$/. -/
def trailingDigits (s : String) : List Char :=
  (s.data.reverse.takeWhile Char.isDigit).reverse

/-- Decimal value of a digit run, as computed by parseInt. -/
def digitsToNat (ds : List Char) : Nat :=
  ds.foldl (fun acc c => acc * 10 + (c.toNat - 48)) 0

/-- extractSiteNumber (src/index.js lines 217-221): parse the trailing
integer of a site name; none models the thrown error when the name has
no trailing digits. -/
def extractSiteNumber (siteName : String) : Option Nat :=
  let ds := trailingDigits siteName
  if ds.isEmpty then none else some (digitsToNat ds)

/-- The conflict-collecting loop of validateProjectNames (src/index.js
lines 227-234): for i in [0, remaining), record site(base+i) when it
already exists in the workspace. -/
def conflictScan (fs : String → Bool) (base i remaining : Nat) : List String :=
  match remaining with
  | 0 => []
  | r + 1 =>
    let projectName := "site" ++ toString (base + i)
    if fs projectName then projectName :: conflictScan fs base (i + 1) r
    else conflictScan fs base (i + 1) r

/-- validateProjectNames (src/index.js lines 223-237). -/
def validateProjectNames (fs : String → Bool) (startingSiteName : String)
    (totalSitesToCreate : Nat) : Except String (List String) :=
  match extractSiteNumber startingSiteName with
  | none => .error ("InvalidNameFormat: " ++ startingSiteName)
  | some baseNumber => .ok (conflictScan fs baseNumber 0 totalSitesToCreate)

/-! ### Domain planning (src/index.js lines 208-215 and 249-260)

Math.random draws for subdomain prefixes are modelled by a stream
rand : Nat -> Fin 36 of character choices, consumed left to right; a
position counter is threaded through the calls exactly as the single
global generator is consumed by the source. -/

/-- The character alphabet of generateRandomPrefix. -/
def alphabet : List Char := "abcdefghijklmnopqrstuvwxyz0123456789".data

/-- The character-accumulating loop of generateRandomPrefix
(src/index.js lines 210-213): n more characters, next draw at
position pos. -/
def genPrefixChars (rand : Nat → Fin 36) : Nat → Nat → List Char
  | _, 0 => []
  | pos, n + 1 => alphabet.getD (rand pos).val 'a' :: genPrefixChars rand (pos + 1) n

/-- generateRandomPrefix (src/index.js lines 208-215), drawing its
characters from positions pos, pos+1, ... of the stream. -/
def generateRandomPrefixAt (length : Nat) (rand : Nat → Fin 36) (pos : Nat) : String :=
  ⟨genPrefixChars rand pos length⟩

/-- The inner subdomain loop of generateProjects (src/index.js lines
255-258): count subdomains of mainDomain, consuming prefixLength draws
each; returns the generated domains and the next unused position. -/
def buildSubdomains (mainDomain : String) (prefixLength : Nat) (rand : Nat → Fin 36) :
    Nat → Nat → List String × Nat
  | pos, 0 => ([], pos)
  | pos, c + 1 =>
    let pfx := generateRandomPrefixAt prefixLength rand pos
    let rest := buildSubdomains mainDomain prefixLength rand (pos + prefixLength) c
    ((pfx ++ "." ++ mainDomain) :: rest.1, rest.2)

/-- The domain-list construction of generateProjects (src/index.js lines
249-260): each main domain followed by its generated subdomains. -/
def buildAllDomainsAux (subdomainCount prefixLength : Nat) (rand : Nat → Fin 36) :
    List String → Nat → List String
  | [], _ => []
  | mainDomain :: rest, pos =>
    let subs :=
      if subdomainCount > 0 then
        buildSubdomains mainDomain prefixLength rand pos subdomainCount
      else ([], pos)
    (mainDomain :: subs.1) ++ buildAllDomainsAux subdomainCount prefixLength rand rest subs.2

/-- The complete ordered domain plan of one run. -/
def buildAllDomains (domains : List String) (subdomainCount prefixLength : Nat)
    (rand : Nat → Fin 36) : List String :=
  buildAllDomainsAux subdomainCount prefixLength rand domains 0

/-! ### Template search (src/index.js lines 169-192)

Absolute paths are modelled as lists of components below the filesystem
root; path.dirname drops the last component and is the identity on the
root, and the filesystem is an existence predicate on paths. -/

/-- path.dirname on component lists. -/
def dirname (p : List String) : List String := p.dropLast

/-- The bounded upward-search loop of findTemplatePath (src/index.js
lines 172-190): at each remaining fuel step check
currentDir/templateName; on reaching the root, check
dirname(startDir)/wjspark/templateName once and stop. -/
def findTemplateLoop (fs : List String → Bool) (startDir : List String)
    (templateName : String) : Nat → List String → Option (List String)
  | 0, _ => none
  | fuel + 1, currentDir =>
    let potentialPath := currentDir ++ [templateName]
    if fs potentialPath then some potentialPath
    else
      let parentDir := dirname currentDir
      if parentDir = currentDir then
        let finalPath := dirname startDir ++ ["wjspark", templateName]
        if fs finalPath then some finalPath else none
      else
        findTemplateLoop fs startDir templateName fuel parentDir

/-- findTemplatePath (src/index.js lines 169-192): the loop runs for at
most 5 iterations. -/
def findTemplatePath (fs : List String → Bool) (startDir : List String)
    (templateName : String) : Option (List String) :=
  findTemplateLoop fs startDir templateName 5 startDir

/-- The chain of directories visited when walking upward from d for at
most bound steps, stopping at the filesystem root. -/
def chainDirs : Nat → List String → List (List String)
  | 0, _ => []
  | bound + 1, d => d :: (if dirname d = d then [] else chainDirs bound (dirname d))

/-- Whether the upward walk from d reaches the filesystem root within
bound visited directories. -/
def reachesRoot : Nat → List String → Bool
  | 0, _ => false
  | bound + 1, d => if dirname d = d then true else reachesRoot bound (dirname d)

/-- Modelled from the spec: the ordered candidate list of the search
described for locate (template-name check in every visited directory,
plus the wjspark sibling check when the root was reached within the
bound). -/
def candidatePaths (startDir : List String) (templateName : String) (bound : Nat) :
    List (List String) :=
  (chainDirs bound startDir).map (· ++ [templateName]) ++
    (if reachesRoot bound startDir then [dirname startDir ++ ["wjspark", templateName]] else [])

/-- Modelled from the spec: locate as the claim literally describes it,
checking workspaceRoot/templateName and then up to 5 ancestor levels
(6 visited directories in all), returning the first existing
candidate. -/
def findTemplatePathClaim (fs : List String → Bool) (startDir : List String)
    (templateName : String) : Option (List String) :=
  (candidatePaths startDir templateName 6).find? fs

/-- Modelled from the spec as amended: the same search with at most 4
ancestor levels beyond workspaceRoot (5 visited directories in all). -/
def findTemplatePathAmended (fs : List String → Bool) (startDir : List String)
    (templateName : String) : Option (List String) :=
  (candidatePaths startDir templateName 5).find? fs

/-! ### Site-config rewrite (src/index.js lines 310-333, src/config.js) -/

/-- The site-template record of src/config.js. -/
structure SiteTemplate where
  title : String
  description : String
  keywords : List String
  language : String

/-- The configuration record of src/config.js. -/
structure Config where
  domains : List String
  githubUsername : String
  siteTemplate : SiteTemplate

/-- src/config.js, field for field. -/
def config : Config :=
  { domains := ["game92.vip"]
    githubUsername := "wjspark"
    siteTemplate :=
      { title := "game92 Games - Online HTML5 Games Platform"
        description := "Discover endless entertainment with our collection of premium HTML5 games. Play instantly in your browser - featuring mind-bending puzzles, thrilling adventures, strategic challenges, and fast-paced action games for all ages."
        keywords := ["Web Games", "Interactive Entertainment", "Instant Play Games", "Cross-Platform Gaming", "Educational Games", "Multiplayer Games", "Retro Games", "Mobile-Friendly Games", "Gaming Portal", "Flash Alternative"]
        language := "en" } }

/-- JSON.stringify on an array of plain strings (none of the configured
keywords needs escaping). -/
def jsonStringifyStrings (ss : List String) : String :=
  "[" ++ String.intercalate "," (ss.map (fun s => "\"" ++ s ++ "\"")) ++ "]"

/-- The replacement site object of updateSiteConfig (src/index.js lines
315-327), with the configured template fields interpolated. -/
def newSiteObject (domain : String) : String :=
  "const site = \x7b\n" ++
  "  \"name\": \"" ++ domain ++ "\",\n" ++
  "  \"title\": \"" ++ config.siteTemplate.title ++ "\",\n" ++
  "  \"description\": \"" ++ config.siteTemplate.description ++ "\",\n" ++
  "  \"logo\": \"/images/logo.png\",\n" ++
  "  \"favicon\": \"/favicon.ico\",\n" ++
  "  \"keywords\": " ++ jsonStringifyStrings config.siteTemplate.keywords ++ ",\n" ++
  "  \"author\": \"" ++ domain ++ " Team\",\n" ++
  "  \"language\": \"" ++ config.siteTemplate.language ++ "\",\n" ++
  "  \"url\": \"https://" ++ domain ++ "\",\n" ++
  "  \"twitterCard\": \"/images/summary_large_image.png\",\n" ++
  "  \"ogImage\": \"/images/og-image.png\",\n" ++
  "\x7d;"

/-- The literal head of the replaced block, const site = followed by an
opening brace. -/
def sitePattern : List Char := "const site = \x7b".data

/-- The literal tail of the replaced block, a closing brace followed by
a semicolon. -/
def endPattern : List Char := "\x7d;".data

/-- Index of the first occurrence of pat in l, none when absent. -/
def findSub (pat : List Char) : List Char → Option Nat
  | [] => if pat.isPrefixOf ([] : List Char) then some 0 else none
  | c :: t => if pat.isPrefixOf (c :: t) then some 0 else (findSub pat t).map (· + 1)

/-- The regex replacement of src/index.js line 330.  The non-global lazy
pattern matches at the first occurrence of the site-object head and
extends to the first subsequent end marker; when the pattern does not
match, String.replace returns the content unchanged. -/
def replaceSiteObject (content replacement : List Char) : List Char :=
  match findSub sitePattern content with
  | none => content
  | some i =>
    let after := content.drop (i + sitePattern.length)
    match findSub endPattern after with
    | none => content
    | some j => content.take i ++ replacement ++ after.drop (j + endPattern.length)

/-- The content transformation of updateSiteConfig (src/index.js lines
310-333): the file is read, the site object is replaced, and the result
is written back. -/
def updateSiteConfigContent (content : String) (domain : String) : String :=
  ⟨replaceSiteObject content.data (newSiteObject domain).data⟩

/-- Whether the lazy pattern of line 330 matches anywhere in the
content. -/
def hasSiteBlock (content : String) : Bool :=
  match findSub sitePattern content.data with
  | none => false
  | some i => (findSub endPattern (content.data.drop (i + sitePattern.length))).isSome

/-- Modelled from the spec: the named fields of the structured site
definition block, in the order they appear in the rewritten file. -/
structure SiteConfigFields where
  name : String
  title : String
  description : String
  logo : String
  favicon : String
  keywords : String
  author : String
  language : String
  url : String
  twitterCard : String
  ogImage : String

/-- Modelled from the spec: one quoted key/value line of the site
block. -/
def renderField (key value : String) : String :=
  "  \"" ++ key ++ "\": \"" ++ value ++ "\",\n"

/-- Modelled from the spec: one key line whose value is unquoted (the
keyword array). -/
def renderRawField (key value : String) : String :=
  "  \"" ++ key ++ "\": " ++ value ++ ",\n"

/-- Modelled from the spec: the whole structured site definition block
populated from a field record. -/
def renderSiteObject (f : SiteConfigFields) : String :=
  "const site = \x7b\n" ++
  renderField "name" f.name ++
  renderField "title" f.title ++
  renderField "description" f.description ++
  renderField "logo" f.logo ++
  renderField "favicon" f.favicon ++
  renderRawField "keywords" f.keywords ++
  renderField "author" f.author ++
  renderField "language" f.language ++
  renderField "url" f.url ++
  renderField "twitterCard" f.twitterCard ++
  renderField "ogImage" f.ogImage ++
  "\x7d;"

/-! ### Project generation pipeline (src/index.js lines 143-156, 239-308) -/

/-- One generated site: the record pushed onto generatedSites plus the
per-project data flowing through the loop body (assigned count and the
games document written to the new project). -/
structure Site where
  projectName : String
  domain : String
  gamesCount : Nat
  gamesData : GamesData
deriving DecidableEq

/-- The per-domain creation loop of generateProjects (src/index.js lines
274-307): project siteIndex is named site(baseNumber + siteIndex), must
not already exist, and receives count possibleCounts[siteIndex] after
the shuffle.  grand supplies each project its own shuffle stream. -/
def buildSites (fs : String → Bool) (gd : GamesData) (counts : List Nat)
    (grand : Nat → Nat → Nat) (baseNumber : Nat) :
    List String → Nat → Except String (List Site)
  | [], _ => .ok []
  | newDomain :: rest, siteIndex =>
    let projectName := "site" ++ toString (baseNumber + siteIndex)
    if fs projectName then .error ("ProjectExists: " ++ projectName)
    else
      let gamesCount := counts.getD siteIndex 0
      let gd' := processGamesJson gd gamesCount (grand siteIndex)
      match buildSites fs gd counts grand baseNumber rest (siteIndex + 1) with
      | .error e => .error e
      | .ok sites => .ok (⟨projectName, newDomain, gamesCount, gd'⟩ :: sites)

/-- generateProjects (src/index.js lines 239-308): extract the base
number, expand the domain list, plan the shuffled counts, then run the
creation loop. -/
def generateProjects (domains : List String) (gd : GamesData) (startingSiteName : String)
    (subdomainCount prefixLength gamesMin gamesMax : Nat) (fs : String → Bool)
    (prand : Nat → Fin 36) (srand : Nat → Nat) (grand : Nat → Nat → Nat) :
    Except String (List Site) :=
  match extractSiteNumber startingSiteName with
  | none => .error ("InvalidNameFormat: " ++ startingSiteName)
  | some baseNumber =>
    let totalSitesToCreate := domains.length * (1 + subdomainCount)
    let allDomains := buildAllDomains domains subdomainCount prefixLength prand
    match planCountsE gamesMin gamesMax totalSitesToCreate srand with
    | .error e => .error e
    | .ok counts => buildSites fs gd counts grand baseNumber allDomains 0

/-- The eligible-games precheck of getUserInput (src/index.js lines
143-156) followed by generateProjects: the run aborts with
InsufficientEligibleGames before any project is created when the
template has fewer html5 entries than gamesMax. -/
def runPipeline (domains : List String) (gd : GamesData) (startingSiteName : String)
    (subdomainCount prefixLength gamesMin gamesMax : Nat) (fs : String → Bool)
    (prand : Nat → Fin 36) (srand : Nat → Nat) (grand : Nat → Nat → Nat) :
    Except String (List Site) :=
  if (html5Games gd).length < gamesMax then .error "InsufficientEligibleGames"
  else
    generateProjects domains gd startingSiteName subdomainCount prefixLength
      gamesMin gamesMax fs prand srand grand

/-! ### Permutation facts about the shuffle -/

/-- Moving the entry stored at position m of t to the front while
writing x into that position permutes x onto the front. -/
theorem cons_set_perm : ∀ (t : List α) (m : Nat) (b x : α), t[m]? = some b →
    (b :: t.set m x).Perm (x :: t) := by
  intro t
  induction t with
  | nil => intro m b x h; simp at h
  | cons c t ih =>
    intro m b x h
    cases m with
    | zero =>
      simp only [List.getElem?_cons_zero, Option.some.injEq] at h
      subst h
      simpa using List.Perm.swap x c t
    | succ m =>
      simp only [List.getElem?_cons_succ] at h
      simp only [List.set_cons_succ]
      have h1 : (b :: c :: t.set m x).Perm (c :: b :: t.set m x) := List.Perm.swap c b _
      have h2 : (c :: b :: t.set m x).Perm (c :: x :: t) := (ih m b x h).cons c
      have h3 : (c :: x :: t).Perm (x :: c :: t) := List.Perm.swap x c t
      exact (h1.trans h2).trans h3

/-- One swap permutes the list. -/
theorem listSwap_perm (l : List α) (i j : Nat) : (listSwap l i j).Perm l := by
  induction l generalizing i j with
  | nil => simp [listSwap]
  | cons c t ih =>
    cases i with
    | zero =>
      cases j with
      | zero => simp [listSwap]
      | succ m =>
        cases hm : t[m]? with
        | none => simp [listSwap, hm]
        | some b =>
          simpa [listSwap, hm] using cons_set_perm t m b c hm
    | succ n =>
      cases j with
      | zero =>
        cases hn : t[n]? with
        | none => simp [listSwap, hn]
        | some a =>
          simpa [listSwap, hn] using cons_set_perm t n a c hn
      | succ m =>
        cases hn : t[n]? with
        | none => simp [listSwap, hn]
        | some a =>
          cases hm : t[m]? with
          | none => simp [listSwap, hn, hm]
          | some b =>
            have htail : listSwap t n m = (t.set n b).set m a := by
              simp [listSwap, hn, hm]
            have := (htail ▸ ih n m).cons c
            simpa [listSwap, hn, hm] using this

/-- Every stage of the shuffle loop permutes the list. -/
theorem fyAux_perm (rand : Nat → Nat) : ∀ (n : Nat) (l : List α), (fyAux rand n l).Perm l
  | 0, _ => List.Perm.refl _
  | n + 1, l => (fyAux_perm rand n _).trans (listSwap_perm l (n + 1) _)

/-- The Fisher-Yates shuffle permutes its input. -/
theorem fisherYates_perm (l : List α) (rand : Nat → Nat) : (fisherYates l rand).Perm l :=
  fyAux_perm rand (l.length - 1) l

/-! ### Count-plan facts -/

/-- Length of the candidate count list. -/
theorem possibleCounts_length (gamesMin gamesMax : Nat) :
    (possibleCounts gamesMin gamesMax).length = gamesMax + 1 - gamesMin := by
  simp [possibleCounts, List.length_range']

/-- The candidate count list has no duplicates. -/
theorem possibleCounts_nodup (gamesMin gamesMax : Nat) :
    (possibleCounts gamesMin gamesMax).Nodup :=
  List.nodup_range' gamesMin (gamesMax + 1 - gamesMin) 1 (by norm_num)

/-- Every candidate count lies in the configured interval. -/
theorem mem_possibleCounts {x gamesMin gamesMax : Nat}
    (h : x ∈ possibleCounts gamesMin gamesMax) : gamesMin ≤ x ∧ x ≤ gamesMax := by
  have := List.mem_range'_1.mp h
  omega

/-- C1: for every gamesMin, gamesMax and totalSites with
gamesMax - gamesMin + 1 >= totalSites (inputs validated so that
gamesMin <= gamesMax), the plan of per-project game counts assigns
exactly totalSites integers, pairwise distinct across projects, all
within [gamesMin, gamesMax]. -/
theorem planCounts_distinct_in_range (gamesMin gamesMax totalSites : Nat) (srand : Nat → Nat)
    (hminmax : gamesMin ≤ gamesMax) (hwide : totalSites ≤ gamesMax - gamesMin + 1) :
    (planCounts gamesMin gamesMax totalSites srand).length = totalSites ∧
    (planCounts gamesMin gamesMax totalSites srand).Nodup ∧
    ∀ x ∈ planCounts gamesMin gamesMax totalSites srand, gamesMin ≤ x ∧ x ≤ gamesMax := by
  have hperm := fisherYates_perm (possibleCounts gamesMin gamesMax) srand
  have hlen : (fisherYates (possibleCounts gamesMin gamesMax) srand).length =
      gamesMax + 1 - gamesMin := by
    rw [hperm.length_eq, possibleCounts_length]
  refine ⟨?_, ?_, ?_⟩
  · rw [planCounts, List.length_take, hlen]
    omega
  · exact ((List.take_sublist _ _).nodup
      (hperm.nodup_iff.mpr (possibleCounts_nodup gamesMin gamesMax)))
  · intro x hx
    exact mem_possibleCounts (hperm.mem_iff.mp (List.mem_of_mem_take hx))

/-- Witness for C1 at gamesMin = 5, gamesMax = 10, totalSites = 3. -/
theorem planCounts_distinct_in_range_witness :
    ((5 : Nat) ≤ 10 ∧ (3 : Nat) ≤ 10 - 5 + 1) ∧
    ((planCounts 5 10 3 (fun _ => 0)).length = 3 ∧
      (planCounts 5 10 3 (fun _ => 0)).Nodup ∧
      ∀ x ∈ planCounts 5 10 3 (fun _ => 0), 5 ≤ x ∧ x ≤ 10) :=
  ⟨⟨by decide, by decide⟩,
    planCounts_distinct_in_range 5 10 3 (fun _ => 0) (by decide) (by decide)⟩

/-- C6: the count planner raises RangeTooSmall exactly when the size of
the integer range is smaller than the number of projects. -/
theorem planCountsE_rangeTooSmall_iff (gamesMin gamesMax totalSites : Nat) (srand : Nat → Nat)
    (hminmax : gamesMin ≤ gamesMax) :
    planCountsE gamesMin gamesMax totalSites srand = .error "RangeTooSmall" ↔
      gamesMax - gamesMin + 1 < totalSites := by
  have hlen : (possibleCounts gamesMin gamesMax).length = gamesMax - gamesMin + 1 := by
    rw [possibleCounts_length]; omega
  by_cases hc : (possibleCounts gamesMin gamesMax).length < totalSites
  · rw [hlen] at hc
    simp only [planCountsE, hlen, if_pos hc]
    simpa using hc
  · rw [hlen] at hc
    simp only [planCountsE, hlen, if_neg hc]
    simp
    omega

/-- Witness for C6 at the spec example gamesMin = 10, gamesMax = 12,
totalSites = 5: the error is raised. -/
theorem planCountsE_rangeTooSmall_iff_witness :
    (10 : Nat) ≤ 12 ∧
    (planCountsE 10 12 5 (fun _ => 0) = .error "RangeTooSmall" ↔ 12 - 10 + 1 < 5) :=
  ⟨by decide, planCountsE_rangeTooSmall_iff 10 12 5 (fun _ => 0) (by decide)⟩

/-- C3: for every catalog, requested count and shuffle stream, the
per-project selection returns only html5-tagged entries, at most the
requested number, and exactly min(count, number of eligible entries)
entries. -/
theorem selectGames_spec (catalog : List Game) (gamesCount : Nat) (rand : Nat → Nat) :
    (∀ g ∈ selectGames catalog gamesCount rand, isHtml5 g = true) ∧
    (selectGames catalog gamesCount rand).length ≤ gamesCount ∧
    (selectGames catalog gamesCount rand).length =
      min gamesCount (catalog.filter isHtml5).length := by
  have hperm := fisherYates_perm (catalog.filter isHtml5) rand
  refine ⟨?_, ?_, ?_⟩
  · intro g hg
    have hmem : g ∈ catalog.filter isHtml5 := hperm.mem_iff.mp (List.mem_of_mem_take hg)
    exact (List.mem_filter.mp hmem).2
  · rw [selectGames, List.length_take]
    exact Nat.min_le_left _ _
  · rw [selectGames, List.length_take, hperm.length_eq]

/-! ### Name facts -/

/-- Peeling the first index off a mapped range. -/
theorem range_map_succ_shift (g : Nat → β) (m : Nat) :
    (List.range (m + 1)).map g = g 0 :: (List.range m).map (fun k => g (k + 1)) := by
  rw [List.range_succ_eq_map]
  simp [List.map_map, Function.comp]

/-- The conflict loop collects exactly the already-existing names among
site(base+i), ..., site(base+i+remaining-1). -/
theorem conflictScan_eq (fs : String → Bool) (base : Nat) :
    ∀ (remaining i : Nat), conflictScan fs base i remaining =
      ((List.range remaining).map (fun k => "site" ++ toString (base + i + k))).filter fs := by
  intro remaining
  induction remaining with
  | zero => intro i; simp [conflictScan]
  | succ r ih =>
    intro i
    rw [range_map_succ_shift (fun k => "site" ++ toString (base + i + k)) r]
    have harg : ∀ k : Nat, base + i + (k + 1) = base + (i + 1) + k := by omega
    simp only [harg, List.filter_cons, Nat.add_zero, ← ih (i + 1)]
    by_cases hfs : fs ("site" ++ toString (base + i)) <;>
      simp [conflictScan, hfs]

/-- C7: for a starting name with trailing integer n, findConflicts
returns exactly the already-existing subset of the K sequential names,
and in particular the empty list when none of them exists; it only
reports them. -/
theorem validateProjectNames_spec (fs : String → Bool) (startingSiteName : String)
    (n K : Nat) (h : extractSiteNumber startingSiteName = some n) :
    validateProjectNames fs startingSiteName K =
      .ok (((List.range K).map (fun i => "site" ++ toString (n + i))).filter fs) ∧
    ((∀ i < K, fs ("site" ++ toString (n + i)) = false) →
      validateProjectNames fs startingSiteName K = .ok []) := by
  have h1 : validateProjectNames fs startingSiteName K = .ok (conflictScan fs n 0 K) := by
    simp [validateProjectNames, h]
  have h2 := conflictScan_eq fs n K 0
  simp only [Nat.add_zero] at h2
  refine ⟨by rw [h1, h2], ?_⟩
  intro hnone
  rw [h1, h2]
  have hfil : ((List.range K).map (fun i => "site" ++ toString (n + i))).filter fs = [] := by
    apply List.filter_eq_nil_iff.mpr
    intro a ha
    obtain ⟨i, hi, rfl⟩ := List.mem_map.mp ha
    simp [hnone i (List.mem_range.mp hi)]
  rw [hfil]

/-- Witness for C7 at startingSiteName site10, K = 3, empty
workspace. -/
theorem validateProjectNames_spec_witness :
    extractSiteNumber "site10" = some 10 ∧
    (validateProjectNames (fun _ => false) "site10" 3 =
        .ok (((List.range 3).map (fun i => "site" ++ toString (10 + i))).filter
          (fun _ => false)) ∧
      ((∀ i < 3, (fun _ : String => false) ("site" ++ toString (10 + i)) = false) →
        validateProjectNames (fun _ => false) "site10" 3 = .ok [])) :=
  ⟨by rfl, validateProjectNames_spec (fun _ => false) "site10" 10 3 (by rfl)⟩

/-! ### Creation-loop facts -/

set_option maxRecDepth 4000 in
/-- On success the creation loop produces one site per domain, named
sequentially and carrying the planned counts. -/
theorem buildSites_ok (fs : String → Bool) (gd : GamesData) (counts : List Nat)
    (grand : Nat → Nat → Nat) (baseNumber : Nat) :
    ∀ (doms : List String) (i : Nat) (sites : List Site),
      buildSites fs gd counts grand baseNumber doms i = .ok sites →
      sites.map (fun st => st.projectName) =
        (List.range doms.length).map (fun k => "site" ++ toString (baseNumber + i + k)) ∧
      sites.map (fun st => st.gamesCount) =
        (List.range doms.length).map (fun k => counts.getD (i + k) 0) := by
  intro doms
  induction doms with
  | nil =>
    intro i sites h
    simp only [buildSites] at h
    cases h
    simp
  | cons d rest ih =>
    intro i sites h
    simp only [buildSites] at h
    by_cases hfs : fs ("site" ++ toString (baseNumber + i))
    · rw [if_pos hfs] at h; cases h
    · rw [if_neg hfs] at h
      cases hrec : buildSites fs gd counts grand baseNumber rest (i + 1) with
      | error e => rw [hrec] at h; cases h
      | ok sites' =>
        rw [hrec] at h
        cases h
        obtain ⟨hn, hc⟩ := ih (i + 1) sites' hrec
        have hshift : ∀ k : Nat, baseNumber + i + (k + 1) = baseNumber + (i + 1) + k := by
          omega
        have hshift2 : ∀ k : Nat, i + 1 + k = i + (k + 1) := by omega
        constructor
        · rw [List.length_cons,
            range_map_succ_shift (fun k => "site" ++ toString (baseNumber + i + k))]
          simp only [hshift, Nat.add_zero, List.map_cons, hn]
        · rw [List.length_cons, range_map_succ_shift (fun k => counts.getD (i + k) 0)]
          simp only [hshift2] at hc
          simp only [hc, Nat.add_zero, List.map_cons]

/-! ### Domain-plan length facts -/

/-- The subdomain loop produces exactly the requested number of
domains. -/
theorem buildSubdomains_fst_length (mainDomain : String) (prefixLength : Nat)
    (rand : Nat → Fin 36) :
    ∀ (c pos : Nat), (buildSubdomains mainDomain prefixLength rand pos c).1.length = c := by
  intro c
  induction c with
  | zero => intro pos; simp [buildSubdomains]
  | succ c ih => intro pos; simp [buildSubdomains, ih]

/-- The domain plan contains one main entry plus subdomainCount entries
per configured domain. -/
theorem buildAllDomainsAux_length (subdomainCount prefixLength : Nat) (rand : Nat → Fin 36) :
    ∀ (doms : List String) (pos : Nat),
      (buildAllDomainsAux subdomainCount prefixLength rand doms pos).length =
        doms.length * (1 + subdomainCount) := by
  intro doms
  induction doms with
  | nil => intro pos; simp [buildAllDomainsAux]
  | cons d rest ih =>
    intro pos
    by_cases hc : subdomainCount > 0
    · simp [buildAllDomainsAux, hc, buildSubdomains_fst_length, ih]
      ring
    · simp [buildAllDomainsAux, hc, ih]
      have : subdomainCount = 0 := by omega
      simp [this]

/-- Length of the complete domain plan. -/
theorem buildAllDomains_length (domains : List String) (subdomainCount prefixLength : Nat)
    (rand : Nat → Fin 36) :
    (buildAllDomains domains subdomainCount prefixLength rand).length =
      domains.length * (1 + subdomainCount) :=
  buildAllDomainsAux_length subdomainCount prefixLength rand domains 0

/-- C2: when the template catalog holds fewer html5-tagged entries than
the configured gamesMax, the run aborts with InsufficientEligibleGames
before any project is created; consequently on a successful run no
assigned game count exceeds the number of eligible entries. -/
theorem insufficientEligibleGames_aborts (domains : List String) (gd : GamesData)
    (startingSiteName : String) (subdomainCount prefixLength gamesMin gamesMax : Nat)
    (fs : String → Bool) (prand : Nat → Fin 36) (srand : Nat → Nat)
    (grand : Nat → Nat → Nat) :
    ((html5Games gd).length < gamesMax →
      runPipeline domains gd startingSiteName subdomainCount prefixLength gamesMin gamesMax
          fs prand srand grand = .error "InsufficientEligibleGames") ∧
    (∀ sites, runPipeline domains gd startingSiteName subdomainCount prefixLength
          gamesMin gamesMax fs prand srand grand = .ok sites →
      ∀ st ∈ sites, st.gamesCount ≤ (html5Games gd).length) := by
  constructor
  · intro h
    simp [runPipeline, h]
  · intro sites hok st hst
    unfold runPipeline at hok
    by_cases hel : (html5Games gd).length < gamesMax
    · rw [if_pos hel] at hok; cases hok
    rw [if_neg hel] at hok
    push_neg at hel
    unfold generateProjects at hok
    cases hex : extractSiteNumber startingSiteName with
    | none => rw [hex] at hok; cases hok
    | some baseNumber =>
      rw [hex] at hok
      dsimp only at hok
      cases hpc : planCountsE gamesMin gamesMax (domains.length * (1 + subdomainCount))
          srand with
      | error e => rw [hpc] at hok; cases hok
      | ok counts =>
        rw [hpc] at hok
        have hcounts : counts = fisherYates (possibleCounts gamesMin gamesMax) srand ∧
            ¬ ((possibleCounts gamesMin gamesMax).length <
                domains.length * (1 + subdomainCount)) := by
          by_cases hlt : (possibleCounts gamesMin gamesMax).length <
              domains.length * (1 + subdomainCount)
          · simp [planCountsE, hlt] at hpc
          · simp [planCountsE, hlt] at hpc
            exact ⟨hpc.symm, hlt⟩
        obtain ⟨hceq, hplen⟩ := hcounts
        subst hceq
        obtain ⟨-, hc⟩ := buildSites_ok fs gd _ grand baseNumber
          (buildAllDomains domains subdomainCount prefixLength prand) 0 sites hok
        have hmem : st.gamesCount ∈ sites.map (fun x => x.gamesCount) :=
          List.mem_map_of_mem _ hst
        rw [hc] at hmem
        obtain ⟨k, hkmem, hkeq⟩ := List.mem_map.mp hmem
        have hk := List.mem_range.mp hkmem
        rw [buildAllDomains_length] at hk
        have hklt : 0 + k <
            (fisherYates (possibleCounts gamesMin gamesMax) srand).length := by
          rw [(fisherYates_perm _ _).length_eq]
          omega
        have hmemc := List.getElem_mem hklt
        rw [← List.getD_eq_getElem _ 0 hklt] at hmemc
        have hmempc := (fisherYates_perm (possibleCounts gamesMin gamesMax) srand).mem_iff.mp
          hmemc
        have hbound := (mem_possibleCounts hmempc).2
        omega

/-- Witness for C2: one eligible game, gamesMax = 2, the run aborts. -/
theorem insufficientEligibleGames_aborts_witness :
    runPipeline ["a.com"] ⟨some [⟨"g1", some ["html5"]⟩]⟩ "site1" 0 5 1 2 (fun _ => false)
        (fun _ => 0) (fun _ => 0) (fun _ _ => 0) = .error "InsufficientEligibleGames" :=
  (insufficientEligibleGames_aborts ["a.com"] ⟨some [⟨"g1", some ["html5"]⟩]⟩ "site1" 0 5 1 2
      (fun _ => false) (fun _ => 0) (fun _ => 0) (fun _ _ => 0)).1 (by decide)

/-- C10: conflict checking and project creation both derive the K
project names as the literal site followed by trailingInteger + i,
where the trailing digit run of the starting name is parsed as a
decimal integer; the starting name's own text and any leading zeros
are discarded, as the concrete name abc007 shows. -/
theorem generatedNames_spec (startingSiteName : String) (n K : Nat) (fs : String → Bool)
    (domains : List String) (gd : GamesData)
    (subdomainCount prefixLength gamesMin gamesMax : Nat) (prand : Nat → Fin 36)
    (srand : Nat → Nat) (grand : Nat → Nat → Nat)
    (h : extractSiteNumber startingSiteName = some n) :
    validateProjectNames fs startingSiteName K =
      .ok (((List.range K).map (fun i => "site" ++ toString (n + i))).filter fs) ∧
    (∀ sites, generateProjects domains gd startingSiteName subdomainCount prefixLength
        gamesMin gamesMax fs prand srand grand = .ok sites →
      sites.map (fun st => st.projectName) =
        (List.range sites.length).map (fun i => "site" ++ toString (n + i))) ∧
    extractSiteNumber "abc007" = some 7 := by
  refine ⟨?_, ?_, by rfl⟩
  · have h2 := conflictScan_eq fs n K 0
    simp only [Nat.add_zero] at h2
    simp [validateProjectNames, h, h2]
  · intro sites hok
    unfold generateProjects at hok
    rw [h] at hok
    dsimp only at hok
    cases hpc : planCountsE gamesMin gamesMax (domains.length * (1 + subdomainCount))
        srand with
    | error e => rw [hpc] at hok; cases hok
    | ok counts =>
      rw [hpc] at hok
      obtain ⟨hn, -⟩ := buildSites_ok fs gd counts grand n
        (buildAllDomains domains subdomainCount prefixLength prand) 0 sites hok
      have hlen : sites.length =
          (buildAllDomains domains subdomainCount prefixLength prand).length := by
        simpa using congrArg List.length hn
      simp only [Nat.add_zero] at hn
      rw [hn, hlen]

/-- Witness for C10 at starting name abc007, K = 1. -/
theorem generatedNames_spec_witness :
    (validateProjectNames (fun _ => false) "abc007" 1 =
      .ok (((List.range 1).map (fun i => "site" ++ toString (7 + i))).filter
        (fun _ => false))) ∧
    (∀ sites, generateProjects ["a.com"] ⟨some []⟩ "abc007" 0 5 1 1 (fun _ => false)
        (fun _ => 0) (fun _ => 0) (fun _ _ => 0) = .ok sites →
      sites.map (fun st => st.projectName) =
        (List.range sites.length).map (fun i => "site" ++ toString (7 + i))) ∧
    extractSiteNumber "abc007" = some 7 :=
  generatedNames_spec "abc007" 7 1 (fun _ => false) ["a.com"] ⟨some []⟩ 0 5 1 1
    (fun _ => 0) (fun _ => 0) (fun _ _ => 0) (by rfl)

/-! ### Domain-plan shape facts -/

/-- The prefix generator draws the requested number of characters. -/
theorem genPrefixChars_length (rand : Nat → Fin 36) :
    ∀ (n pos : Nat), (genPrefixChars rand pos n).length = n := by
  intro n
  induction n with
  | zero => intro pos; simp [genPrefixChars]
  | succ n ih => intro pos; simp [genPrefixChars, ih]

/-- Every generated prefix character belongs to the lowercase-plus-digit
alphabet. -/
theorem genPrefixChars_mem (rand : Nat → Fin 36) :
    ∀ (n pos : Nat), ∀ c ∈ genPrefixChars rand pos n, c ∈ alphabet := by
  intro n
  induction n with
  | zero => intro pos c hc; simp [genPrefixChars] at hc
  | succ n ih =>
    intro pos c hc
    simp only [genPrefixChars, List.mem_cons] at hc
    cases hc with
    | inl hc =>
      subst hc
      have hlt : (rand pos).val < alphabet.length := by
        have := (rand pos).isLt
        have hl : alphabet.length = 36 := by rfl
        omega
      rw [List.getD_eq_getElem _ _ hlt]
      exact List.getElem_mem hlt
    | inr hc => exact ih (pos + 1) c hc

/-- The subdomain loop returns exactly count entries, each a generated
prefix of the configured length joined by a dot to the main domain. -/
theorem buildSubdomains_spec (mainDomain : String) (prefixLength : Nat)
    (rand : Nat → Fin 36) :
    ∀ (c pos : Nat), ∃ ps : List String,
      (buildSubdomains mainDomain prefixLength rand pos c).1 =
        ps.map (fun p => p ++ "." ++ mainDomain) ∧
      ps.length = c ∧
      ∀ p ∈ ps, p.length = prefixLength ∧ ∀ ch ∈ p.data, ch ∈ alphabet := by
  intro c
  induction c with
  | zero =>
    intro pos
    exact ⟨[], by simp [buildSubdomains], rfl, by simp⟩
  | succ c ih =>
    intro pos
    obtain ⟨ps, heq, hlen, hall⟩ := ih (pos + prefixLength)
    refine ⟨generateRandomPrefixAt prefixLength rand pos :: ps, ?_, by simp [hlen], ?_⟩
    · simp [buildSubdomains, heq]
    · intro p hp
      cases List.mem_cons.mp hp with
      | inl h =>
        subst h
        constructor
        · show (genPrefixChars rand pos prefixLength).length = prefixLength
          exact genPrefixChars_length rand prefixLength pos
        · intro ch hch
          exact genPrefixChars_mem rand prefixLength pos ch hch
      | inr h => exact hall p h

/-- The domain-list construction, for any starting stream position:
each configured domain is followed by its own block of generated
subdomains. -/
theorem buildAllDomainsAux_shape (subdomainCount prefixLength : Nat) (rand : Nat → Fin 36) :
    ∀ (doms : List String) (pos : Nat), ∃ ps : List (List String),
      ps.length = doms.length ∧
      (∀ l ∈ ps, l.length = subdomainCount ∧
        ∀ p ∈ l, p.length = prefixLength ∧ ∀ ch ∈ p.data, ch ∈ alphabet) ∧
      buildAllDomainsAux subdomainCount prefixLength rand doms pos =
        (doms.zip ps).flatMap (fun x => x.1 :: x.2.map (fun p => p ++ "." ++ x.1)) := by
  intro doms
  induction doms with
  | nil => intro pos; exact ⟨[], rfl, by simp, by simp [buildAllDomainsAux]⟩
  | cons d rest ih =>
    intro pos
    by_cases hc : subdomainCount > 0
    · obtain ⟨ps1, hps1eq, hps1len, hps1all⟩ := buildSubdomains_spec d prefixLength rand
        subdomainCount pos
      obtain ⟨ps, hlen, hall, heq⟩ :=
        ih (buildSubdomains d prefixLength rand pos subdomainCount).2
      refine ⟨ps1 :: ps, by simp [hlen], ?_, ?_⟩
      · intro l hl
        cases List.mem_cons.mp hl with
        | inl h => exact h ▸ ⟨hps1len, hps1all⟩
        | inr h => exact hall l h
      · simp only [buildAllDomainsAux, if_pos hc, List.zip_cons_cons, List.flatMap_cons,
          heq, hps1eq]
    · have hz : subdomainCount = 0 := by omega
      subst hz
      obtain ⟨ps, hlen, hall, heq⟩ := ih pos
      refine ⟨[] :: ps, by simp [hlen], ?_, ?_⟩
      · intro l hl
        cases List.mem_cons.mp hl with
        | inl h => exact h ▸ ⟨rfl, by simp⟩
        | inr h => exact hall l h
      · simp only [buildAllDomainsAux, List.zip_cons_cons, List.flatMap_cons]
        simp only [List.map_nil, gt_iff_lt, Nat.lt_irrefl, if_false]
        rw [heq]

/-- C5: the planned domain sequence lists, for each base domain in
order, the base domain itself followed by subdomainCount entries
prefix.base whose prefixes have exactly prefixLength characters drawn
from the lowercase-plus-digit alphabet; in particular for base list
[a.com], subdomainCount 2 and prefixLength 5 it yields a.com plus two
strings of the form xxxxx.a.com with xxxxx five alphabet characters. -/
theorem buildAllDomains_shape (domains : List String) (subdomainCount prefixLength : Nat)
    (rand : Nat → Fin 36) :
    (∃ ps : List (List String),
      ps.length = domains.length ∧
      (∀ l ∈ ps, l.length = subdomainCount ∧
        ∀ p ∈ l, p.length = prefixLength ∧ ∀ ch ∈ p.data, ch ∈ alphabet) ∧
      buildAllDomains domains subdomainCount prefixLength rand =
        (domains.zip ps).flatMap (fun x => x.1 :: x.2.map (fun p => p ++ "." ++ x.1))) ∧
    (∀ r : Nat → Fin 36, ∃ p1 p2 : String,
      buildAllDomains ["a.com"] 2 5 r = ["a.com", p1 ++ ".a.com", p2 ++ ".a.com"] ∧
      (p1.length = 5 ∧ ∀ ch ∈ p1.data, ch ∈ alphabet) ∧
      (p2.length = 5 ∧ ∀ ch ∈ p2.data, ch ∈ alphabet)) := by
  constructor
  · exact buildAllDomainsAux_shape subdomainCount prefixLength rand domains 0
  · intro r
    obtain ⟨ps, hlen, hall, heq⟩ := buildAllDomainsAux_shape 2 5 r ["a.com"] 0
    match ps, hlen with
    | [l], _ =>
      obtain ⟨hl2, hlp⟩ := hall l (by simp)
      match l, hl2 with
      | [p1, p2], _ =>
        refine ⟨p1, p2, ?_, ?_, ?_⟩
        · show buildAllDomainsAux 2 5 r ["a.com"] 0 = _
          rw [heq]
          simp only [List.zip_cons_cons, List.zip_nil_left, List.flatMap_cons,
            List.flatMap_nil, List.map_cons, List.map_nil, List.append_nil]
          rw [String.append_assoc, String.append_assoc]
          rfl
        · exact hlp p1 (by simp)
        · exact hlp p2 (by simp)

/-! ### Template-search facts -/

/-- The search loop returns the first existing candidate of the visited
chain, with the wjspark sibling candidate appended when the root is
reached within the remaining fuel. -/
theorem findTemplateLoop_eq (fs : List String → Bool) (startDir : List String)
    (templateName : String) :
    ∀ (fuel : Nat) (d : List String),
      findTemplateLoop fs startDir templateName fuel d =
        ((chainDirs fuel d).map (· ++ [templateName]) ++
          (if reachesRoot fuel d then [dirname startDir ++ ["wjspark", templateName]]
            else [])).find? fs := by
  intro fuel
  induction fuel with
  | zero => intro d; simp [findTemplateLoop, chainDirs, reachesRoot]
  | succ fuel ih =>
    intro d
    simp only [findTemplateLoop]
    by_cases hroot : dirname d = d
    · have h1 : chainDirs (fuel + 1) d = [d] := by simp [chainDirs, hroot]
      have h2 : reachesRoot (fuel + 1) d = true := by simp [reachesRoot, hroot]
      rw [h1, h2]
      simp only [if_true, List.map_cons, List.map_nil, List.cons_append, List.nil_append]
      by_cases hfs : fs (d ++ [templateName])
      · rw [if_pos hfs, List.find?_cons_of_pos _ hfs]
      · rw [if_neg hfs, if_pos hroot, List.find?_cons_of_neg _ hfs]
        cases hwj : fs (dirname startDir ++ ["wjspark", templateName]) <;>
          simp [List.find?_cons, hwj]
    · have h1 : chainDirs (fuel + 1) d = d :: chainDirs fuel (dirname d) := by
        simp [chainDirs, hroot]
      have h2 : reachesRoot (fuel + 1) d = reachesRoot fuel (dirname d) := by
        simp [reachesRoot, hroot]
      rw [h1, h2, List.map_cons, List.cons_append]
      by_cases hfs : fs (d ++ [templateName])
      · rw [if_pos hfs, List.find?_cons_of_pos _ hfs]
      · rw [if_neg hfs, if_neg hroot, List.find?_cons_of_neg _ hfs]
        exact ih (dirname d)

/-- C4 counterexample: with the template visible only in the fifth
ancestor (the filesystem root) of a workspace five levels deep, the
claimed search (one initial check plus up to five upward levels) finds
it, but the implemented loop stops after five total directory checks
(the workspace plus four ancestors) and reports not found. -/
theorem findTemplatePath_claim_counterexample :
    findTemplatePath (fun p => p == [("t" : String)]) ["a", "b", "c", "d", "e"] "t" =
        none ∧
      findTemplatePathClaim (fun p => p == [("t" : String)]) ["a", "b", "c", "d", "e"] "t" =
        some ["t"] := by
  constructor <;> rfl

/-- C4 as amended: the search checks workspaceRoot/templateName and then
walks up parent directories for at most 4 further levels (5 directory
checks in all), performing the final wjspark sibling check when the
filesystem root is reached within the bound, and returns the first
existing candidate, otherwise not found. -/
theorem findTemplatePath_eq_amended (fs : List String → Bool) (startDir : List String)
    (templateName : String) :
    findTemplatePath fs startDir templateName =
      findTemplatePathAmended fs startDir templateName :=
  findTemplateLoop_eq fs startDir templateName 5 startDir

/-! ### Site-config rewrite facts -/

/-- The replacement block of the rewrite is exactly the structured site
definition populated with the assigned domain, the derived author and
URL, the configured template texts and the fixed asset paths. -/
theorem newSiteObject_eq_render (domain : String) :
    newSiteObject domain = renderSiteObject
      ⟨domain, config.siteTemplate.title, config.siteTemplate.description,
        "/images/logo.png", "/favicon.ico",
        jsonStringifyStrings config.siteTemplate.keywords, domain ++ " Team",
        config.siteTemplate.language, "https://" ++ domain,
        "/images/summary_large_image.png", "/images/og-image.png"⟩ := by
  simp only [newSiteObject, renderSiteObject, renderField, renderRawField,
    show ("  \"name\": \"" : String) = "  \"" ++ "name" ++ "\": \"" from rfl,
    show ("  \"title\": \"" : String) = "  \"" ++ "title" ++ "\": \"" from rfl,
    show ("  \"description\": \"" : String) = "  \"" ++ "description" ++ "\": \"" from rfl,
    show ("  \"logo\": \"/images/logo.png\",\n" : String) =
      "  \"" ++ "logo" ++ "\": \"" ++ "/images/logo.png" ++ "\",\n" from rfl,
    show ("  \"favicon\": \"/favicon.ico\",\n" : String) =
      "  \"" ++ "favicon" ++ "\": \"" ++ "/favicon.ico" ++ "\",\n" from rfl,
    show ("  \"keywords\": " : String) = "  \"" ++ "keywords" ++ "\": " from rfl,
    show ("  \"author\": \"" : String) = "  \"" ++ "author" ++ "\": \"" from rfl,
    show (" Team\",\n" : String) = " Team" ++ "\",\n" from rfl,
    show ("  \"language\": \"" : String) = "  \"" ++ "language" ++ "\": \"" from rfl,
    show ("  \"url\": \"https://" : String) =
      "  \"" ++ "url" ++ "\": \"" ++ "https://" from rfl,
    show ("  \"twitterCard\": \"/images/summary_large_image.png\",\n" : String) =
      "  \"" ++ "twitterCard" ++ "\": \"" ++ "/images/summary_large_image.png" ++ "\",\n"
      from rfl,
    show ("  \"ogImage\": \"/images/og-image.png\",\n" : String) =
      "  \"" ++ "ogImage" ++ "\": \"" ++ "/images/og-image.png" ++ "\",\n" from rfl,
    String.append_assoc]

/-- C8: when the copied site-configuration file matches the single site
definition block (head found at i, end marker j characters further),
the rewrite replaces exactly that block with the structured block whose
name is the assigned domain, whose url is https:// plus the domain,
whose author is the domain plus Team, whose title, description,
keywords and language come from the configured site template, and whose
logo, favicon, twitterCard and ogImage are the fixed asset paths. -/
theorem updateSiteConfig_rewrites_block (content domain : String) (i j : Nat)
    (h1 : findSub sitePattern content.data = some i)
    (h2 : findSub endPattern (content.data.drop (i + sitePattern.length)) = some j) :
    (updateSiteConfigContent content domain).data =
      content.data.take i ++
        (renderSiteObject
          ⟨domain, config.siteTemplate.title, config.siteTemplate.description,
            "/images/logo.png", "/favicon.ico",
            jsonStringifyStrings config.siteTemplate.keywords, domain ++ " Team",
            config.siteTemplate.language, "https://" ++ domain,
            "/images/summary_large_image.png", "/images/og-image.png"⟩).data ++
        (content.data.drop (i + sitePattern.length)).drop (j + endPattern.length) := by
  simp only [updateSiteConfigContent, replaceSiteObject, h1, h2]
  rw [newSiteObject_eq_render]

/-- Witness for C8 on a small concrete config file. -/
theorem updateSiteConfig_rewrites_block_witness :
    (findSub sitePattern ("x\nconst site = \x7b q: 1 \x7d;\ny" : String).data = some 2 ∧
      findSub endPattern
        (("x\nconst site = \x7b q: 1 \x7d;\ny" : String).data.drop
          (2 + sitePattern.length)) = some 6) ∧
    (updateSiteConfigContent "x\nconst site = \x7b q: 1 \x7d;\ny" "a.com").data =
      ("x\nconst site = \x7b q: 1 \x7d;\ny" : String).data.take 2 ++
        (renderSiteObject
          ⟨"a.com", config.siteTemplate.title, config.siteTemplate.description,
            "/images/logo.png", "/favicon.ico",
            jsonStringifyStrings config.siteTemplate.keywords, "a.com" ++ " Team",
            config.siteTemplate.language, "https://" ++ "a.com",
            "/images/summary_large_image.png", "/images/og-image.png"⟩).data ++
        (("x\nconst site = \x7b q: 1 \x7d;\ny" : String).data.drop
          (2 + sitePattern.length)).drop (6 + endPattern.length) :=
  ⟨⟨by rfl, by rfl⟩,
    updateSiteConfig_rewrites_block "x\nconst site = \x7b q: 1 \x7d;\ny" "a.com" 2 6
      (by rfl) (by rfl)⟩

/-- C9: when the copied site-configuration file contains no site
definition block, the rewrite leaves the content unchanged and raises
no error. -/
theorem updateSiteConfig_missing_block_unchanged (content domain : String)
    (h : hasSiteBlock content = false) :
    updateSiteConfigContent content domain = content := by
  unfold hasSiteBlock at h
  cases h1 : findSub sitePattern content.data with
  | none => simp [updateSiteConfigContent, replaceSiteObject, h1]
  | some i =>
    rw [h1] at h
    dsimp only at h
    cases h2 : findSub endPattern (content.data.drop (i + sitePattern.length)) with
    | none => simp [updateSiteConfigContent, replaceSiteObject, h1, h2]
    | some j => rw [h2] at h; simp at h

/-- Witness for C9 on a file without any site block. -/
theorem updateSiteConfig_missing_block_unchanged_witness :
    hasSiteBlock "export default 42;" = false ∧
    updateSiteConfigContent "export default 42;" "a.com" = "export default 42;" :=
  ⟨by rfl, updateSiteConfig_missing_block_unchanged "export default 42;" "a.com" (by rfl)⟩

end BatchProcessor
